import Mathlib

/-
Verification of the FCS analyzer (fcs-backend/fcs_analyzer.py).

Modelling conventions:
* Python floats are modelled as exact rationals (ℚ).  All quantities the
  program manipulates (dollar amounts, percentages, factors) stay far from
  the float granularity, so the idealisation is faithful for the
  properties proved here.
* Python round(x, n) is modelled as rounding x * 10^n to the nearest
  integer (Mathlib round).  None of the concrete values appearing in the
  development sit exactly at a .5 boundary, so the tie-breaking rule is
  irrelevant.
* Python list.sort(key=k) is a stable sort; it is modelled by a stable
  insertion sort by integer key.
* Python dicts keep insertion order; the lender-profile directory is a
  list of key/profile pairs iterated in order.
-/

namespace FCS

/-- Python round(x, 2) over ℚ. -/
def round2 (x : ℚ) : ℚ := (round (x * 100) : ℤ) / 100

/-- Python round(x, 1) over ℚ (used for the one-decimal fee-percent format). -/
def round1 (x : ℚ) : ℚ := (round (x * 10) : ℤ) / 10

section StableSort

variable {α : Type*} (key : α → ℤ)

/-- Insert x into a key-sorted list, before the first element whose key is
not smaller; processing the input back to front with this insertion is a
stable sort, matching Python list.sort. -/
def insertByKey (x : α) : List α → List α
  | [] => [x]
  | y :: ys => if key x ≤ key y then x :: y :: ys else y :: insertByKey x ys

/-- Stable insertion sort by an integer key (model of Python list.sort(key=...)). -/
def sortByKey : List α → List α
  | [] => []
  | x :: xs => insertByKey key x (sortByKey xs)

theorem insertByKey_perm (x : α) (l : List α) :
    List.Perm (insertByKey key x l) (x :: l) := by
  induction l with
  | nil => simp [insertByKey]
  | cons y ys ih =>
    by_cases h : key x ≤ key y
    · simp [insertByKey, h]
    · simp only [insertByKey, if_neg h]
      exact (ih.cons y).trans (List.Perm.swap x y ys)

theorem sortByKey_perm (l : List α) : List.Perm (sortByKey key l) l := by
  induction l with
  | nil => simp [sortByKey]
  | cons x xs ih =>
    exact (insertByKey_perm key x (sortByKey key xs)).trans (ih.cons x)

theorem mem_sortByKey {a : α} {l : List α} : a ∈ sortByKey key l ↔ a ∈ l :=
  (sortByKey_perm key l).mem_iff

theorem pairwise_insertByKey {x : α} {l : List α}
    (h : l.Pairwise (fun a b => key a ≤ key b)) :
    (insertByKey key x l).Pairwise (fun a b => key a ≤ key b) := by
  induction l with
  | nil => simp [insertByKey]
  | cons y ys ih =>
    rcases List.pairwise_cons.mp h with ⟨hy, hys⟩
    by_cases hxy : key x ≤ key y
    · simp only [insertByKey, if_pos hxy]
      refine List.pairwise_cons.mpr ⟨?_, h⟩
      intro z hz
      rcases List.mem_cons.mp hz with rfl | hz
      · exact hxy
      · exact hxy.trans (hy z hz)
    · simp only [insertByKey, if_neg hxy]
      refine List.pairwise_cons.mpr ⟨?_, ih hys⟩
      intro z hz
      have hz' := List.mem_cons.mp ((insertByKey_perm key x ys).mem_iff.mp hz)
      rcases hz' with rfl | hz'
      · exact (not_le.mp hxy).le
      · exact hy z hz'

theorem sortByKey_pairwise (l : List α) :
    (sortByKey key l).Pairwise (fun a b => key a ≤ key b) := by
  induction l with
  | nil => simp [sortByKey]
  | cons x xs ih => exact pairwise_insertByKey key ih

theorem insertByKey_append_lt (x : α) (ys zs : List α)
    (h : ∀ y ∈ ys, key y < key x) :
    insertByKey key x (ys ++ zs) = ys ++ insertByKey key x zs := by
  induction ys with
  | nil => simp
  | cons y ys ih =>
    have hy : key y < key x := h y (List.mem_cons_self y ys)
    simp only [List.cons_append, insertByKey, if_neg (not_le.mpr hy), List.append_eq]
    rw [ih fun z hz => h z (List.mem_cons_of_mem y hz)]

theorem insertByKey_eq_cons (x : α) (zs : List α)
    (h : ∀ z ∈ zs, key x ≤ key z) :
    insertByKey key x zs = x :: zs := by
  cases zs with
  | nil => rfl
  | cons z zs => simp only [insertByKey, if_pos (h z (List.mem_cons_self z zs))]

/-- A stable sort whose keys all lie in {1,2,3,4} is exactly the
concatenation of the four key-classes in key order with the original
relative order kept inside each class. -/
theorem sortByKey_four_bands (l : List α)
    (h : ∀ x ∈ l, 1 ≤ key x ∧ key x ≤ 4) :
    sortByKey key l
      = l.filter (fun x => decide (key x = 1)) ++ l.filter (fun x => decide (key x = 2))
        ++ l.filter (fun x => decide (key x = 3)) ++ l.filter (fun x => decide (key x = 4)) := by
  induction l with
  | nil => simp [sortByKey]
  | cons x l ih =>
    have hx := h x (List.mem_cons_self x l)
    have hl : ∀ y ∈ l, 1 ≤ key y ∧ key y ≤ 4 :=
      fun y hy => h y (List.mem_cons_of_mem x hy)
    have keyA : ∀ (i : ℤ) (y : α), y ∈ l.filter (fun z => decide (key z = i)) → key y = i :=
      fun i y hy => of_decide_eq_true (List.mem_filter.mp hy).2
    have hcase : key x = 1 ∨ key x = 2 ∨ key x = 3 ∨ key x = 4 := by omega
    simp only [sortByKey, ih hl]
    rcases hcase with h1 | h2 | h3 | h4
    · rw [insertByKey_eq_cons]
      · simp [List.filter_cons, h1]
      · intro z hz
        rw [h1]
        simp only [List.append_assoc, List.mem_append] at hz
        rcases hz with hz | hz | hz | hz
        · rw [keyA 1 z hz]
        · rw [keyA 2 z hz]; omega
        · rw [keyA 3 z hz]; omega
        · rw [keyA 4 z hz]; omega
    · rw [List.append_assoc, List.append_assoc, insertByKey_append_lt,
        insertByKey_eq_cons]
      · simp [List.filter_cons, h2, List.append_assoc]
      · intro z hz
        simp only [List.mem_append] at hz
        rcases hz with hz | hz | hz
        · rw [h2, keyA 2 z hz]
        · rw [h2, keyA 3 z hz]; omega
        · rw [h2, keyA 4 z hz]; omega
      · intro y hy
        rw [h2, keyA 1 y hy]; omega
    · rw [List.append_assoc, List.append_assoc, ← List.append_assoc,
        insertByKey_append_lt, insertByKey_eq_cons]
      · simp [List.filter_cons, h3, List.append_assoc]
      · intro z hz
        simp only [List.mem_append] at hz
        rcases hz with hz | hz
        · rw [h3, keyA 3 z hz]
        · rw [h3, keyA 4 z hz]; omega
      · intro y hy
        simp only [List.mem_append] at hy
        rcases hy with hy | hy
        · rw [h3, keyA 1 y hy]; omega
        · rw [h3, keyA 2 y hy]; omega
    · rw [insertByKey_append_lt, insertByKey_eq_cons]
      · simp [List.filter_cons, h4, List.append_assoc]
      · intro z hz
        rw [h4, keyA 4 z hz]
      · intro y hy
        simp only [List.append_assoc, List.mem_append] at hy
        rcases hy with hy | hy | hy
        · rw [h4, keyA 1 y hy]; omega
        · rw [h4, keyA 2 y hy]; omega
        · rw [h4, keyA 3 y hy]; omega

end StableSort

/-! ## Data model (mirrors the dictionaries built by fcs_analyzer.parse_fcs) -/

/-- One recurring MCA position ("Position n: lender - $amount weekly/daily,
Last pull: date - Status: Active/Stopped"); parse_fcs lower-cases frequency
and status on storage. -/
structure Position where
  position : ℤ
  lender : String
  amount : ℚ
  frequency : String
  lastPull : String
  status : String
deriving DecidableEq

/-- The "Last MCA Deposit" record; the extraction is all-or-nothing, so
whenever parse_fcs emits it, every field (including payment and frequency)
is present. -/
structure LastDeposit where
  amount : ℚ
  date : String
  lender : String
  payment : ℚ
  frequency : String
deriving DecidableEq

/-- A lender profile from the directory (config/lender_profiles.json). -/
structure LenderProfile where
  aliases : List String
  typical_factor : ℚ
  factor_range : ℚ × ℚ
  typical_terms_weekly : List ℤ
  typical_terms_daily : List ℤ
  typical_fee_range : ℚ × ℚ
deriving DecidableEq

/-- The lender directory: Python dicts keep insertion order, so it is a
list of key/profile pairs iterated in order. -/
abbrev Directory := List (String × LenderProfile)

/-- The record parse_fcs returns: every field independently optional,
except mcaPositions (possibly empty list) and lastDeposit (Option). -/
structure ParsedData where
  businessName : Option String
  currentPositionCount : Option ℤ
  nextPosition : Option ℤ
  industry : Option String
  timeInBusiness : Option String
  avgRevenue : Option ℚ
  negativeDays : Option ℤ
  avgNegativeDays : Option ℚ
  avgBankBalance : Option ℚ
  state : Option String
  lastDeposit : Option LastDeposit
  mcaPositions : List Position
deriving DecidableEq

/-! ## String helpers (Python str.lower, str.strip and the `in` operator) -/

/-- Does the first list occur as a prefix of the second? -/
def startsWithList {α : Type*} [DecidableEq α] : List α → List α → Bool
  | [], _ => true
  | _ :: _, [] => false
  | a :: as, b :: bs => if a = b then startsWithList as bs else false

/-- Does the first list occur contiguously inside the second? -/
def hasSubList {α : Type*} [DecidableEq α] (needle : List α) : List α → Bool
  | [] => startsWithList needle []
  | b :: bs => startsWithList needle (b :: bs) || hasSubList needle bs

/-- Python str.lower (ASCII-faithful). -/
def pyLower (s : String) : String := String.mk (s.data.map Char.toLower)

/-- Python str.strip: drop leading and trailing whitespace. -/
def pyStrip (s : String) : String :=
  String.mk (((s.data.dropWhile Char.isWhitespace).reverse.dropWhile Char.isWhitespace).reverse)

/-- Python `a in b` on strings: contiguous substring test. -/
def isSubstring (a b : String) : Bool := hasSubList a.data b.data

/-! ## calculate_withholding (source lines 107-136) -/

/-- One entry of the withholding breakdown. -/
structure BreakdownEntry where
  lender : String
  payment : ℚ
  frequency : String
  dailyRate : ℚ
  monthlyPayment : ℚ
  withholdPct : ℚ
deriving DecidableEq

structure WithholdingResult where
  total : ℚ
  breakdown : List BreakdownEntry
deriving DecidableEq

/-- The loop body of calculate_withholding: accumulates the un-rounded
total and the breakdown entries in input order, skipping non-active
positions. -/
def withholdLoop (revenue : ℚ) : List Position → ℚ × List BreakdownEntry
  | [] => (0, [])
  | pos :: rest =>
    if pos.status = "active" then
      let daily_rate := if pos.frequency = "weekly" then pos.amount / 5 else pos.amount
      let monthly_payment := daily_rate * 21
      let withhold_pct := monthly_payment / revenue * 100
      let r := withholdLoop revenue rest
      (withhold_pct + r.1,
        { lender := pos.lender, payment := pos.amount, frequency := pos.frequency,
          dailyRate := round2 daily_rate, monthlyPayment := round2 monthly_payment,
          withholdPct := round2 withhold_pct } :: r.2)
    else withholdLoop revenue rest

/-- FCSAnalyzer.calculate_withholding. -/
def calculate_withholding (positions : List Position) (revenue : ℚ) : WithholdingResult :=
  { total := round2 (withholdLoop revenue positions).1,
    breakdown := (withholdLoop revenue positions).2 }

/-! ## identify_lender (source lines 138-148) -/

/-- The double loop of identify_lender: first profile in directory order
with an alias contained in the lowered name or containing it. -/
def findProfile (lender_lower : String) : Directory → Option LenderProfile
  | [] => none
  | (_, profile) :: rest =>
    if profile.aliases.any (fun al => isSubstring al lender_lower || isSubstring lender_lower al)
    then some profile
    else findProfile lender_lower rest

/-- FCSAnalyzer.identify_lender. -/
def identify_lender (profiles : Directory) (lender_name : String) : Option LenderProfile :=
  findProfile (pyStrip (pyLower lender_name)) profiles

/-! ## analyze_last_position (source lines 150-271) -/

/-- A reconstructed scenario.  feePercent and factor store the numeric
value of the one-decimal / two-decimal formatted strings the source
produces; originalFunding, fee and totalPayback store the Python round()
of the raw values. -/
structure Scenario where
  term : ℤ
  termUnit : String
  payment : ℚ
  frequency : String
  originalFunding : ℚ
  deposit : ℚ
  fee : ℚ
  feePercent : ℚ
  totalPayback : ℚ
  factor : ℚ
  likelihood : String
  intelligenceScore : ℤ
deriving DecidableEq

/-- get_possible_clean_amounts: candidate clean funding amounts at the
tier increment straddling the deposit, keeping only candidates at least
the deposit (and positive).  The candidates are integral, so they are
represented as integers. -/
def get_possible_clean_amounts (amount : ℚ) : List ℤ :=
  let possibilities : List ℤ :=
    if amount < 25000 then
      (List.range 5).map (fun i => (⌊amount / 5000⌋ + ((i : ℤ) - 1)) * 5000)
    else if amount < 100000 then
      (List.range 5).map (fun i => (⌊amount / 10000⌋ + ((i : ℤ) - 1)) * 10000)
    else if amount < 250000 then
      (List.range 4).map (fun i => (⌊amount / 25000⌋ + ((i : ℤ) - 1)) * 25000)
    else
      (List.range 4).map (fun i => (⌊amount / 50000⌋ + ((i : ℤ) - 1)) * 50000)
  possibilities.filter (fun p => decide (amount ≤ (p : ℚ)) && decide (0 < p))

/-- A candidate original funding amount with its exact fee. -/
structure OrigFee where
  original : ℤ
  fee : ℚ
  fee_percent : ℚ
deriving DecidableEq

/-- score_fee: 1 for fee in [3%,5%], 2 for [0,2%], 3 for [6%,10%], else 4. -/
def score_fee (fee_pct : ℚ) : ℤ :=
  if 0.03 ≤ fee_pct ∧ fee_pct ≤ 0.05 then 1
  else if 0 ≤ fee_pct ∧ fee_pct ≤ 0.02 then 2
  else if 0.06 ≤ fee_pct ∧ fee_pct ≤ 0.10 then 3
  else 4

/-- The fee filter: keep candidates whose fee percent lies in [0, 0.10]. -/
def originalsWithFees (deposit_amount : ℚ) : List OrigFee :=
  (get_possible_clean_amounts deposit_amount).filterMap (fun (orig : ℤ) =>
    let calculated_fee := (orig : ℚ) - deposit_amount
    let fee_percent := calculated_fee / (orig : ℚ)
    if 0 ≤ fee_percent ∧ fee_percent ≤ 0.10 then
      some { original := orig, fee := calculated_fee, fee_percent := fee_percent }
    else none)

/-- The fee-filtered candidates sorted (stably) by score_fee. -/
def sortedOriginalsWithFees (deposit_amount : ℚ) : List OrigFee :=
  sortByKey (fun od => score_fee od.fee_percent) (originalsWithFees deposit_amount)

/-- Weekly candidate terms: range(10, 72, 2). -/
def weeklyTerms : List ℤ := (List.range 31).map (fun i => 10 + 2 * (i : ℤ))

/-- Daily candidate terms: range(60, 230, 10). -/
def dailyTerms : List ℤ := (List.range 17).map (fun i => 60 + 10 * (i : ℤ))

def termsFor (frequency : String) : List ℤ :=
  if frequency = "weekly" then weeklyTerms else dailyTerms

/-- FCSAnalyzer._determine_likelihood. -/
def determine_likelihood (factor : ℚ) : String :=
  if |factor - 1.49| < 0.01 then "most-likely"
  else if 1.42 ≤ factor ∧ factor ≤ 1.55 then "realistic"
  else if 1.30 ≤ factor ∧ factor ≤ 1.41 then "possible-low"
  else if 1.56 ≤ factor ∧ factor ≤ 1.60 then "possible-high"
  else "unlikely"

/-- Scenario generation: for each retained candidate and each term, keep
the scenario when the factor lies in [1.20, 1.60]. -/
def generatedScenarios (deposit : LastDeposit) (payment : ℚ) (frequency : String) :
    List Scenario :=
  (sortedOriginalsWithFees deposit.amount).flatMap (fun od =>
    (termsFor frequency).filterMap (fun (term : ℤ) =>
      let total_payback := payment * (term : ℚ)
      let factor := total_payback / (od.original : ℚ)
      if 1.20 ≤ factor ∧ factor ≤ 1.60 then
        some { term := term,
               termUnit := if frequency = "weekly" then "weeks" else "days",
               payment := payment,
               frequency := frequency,
               originalFunding := ((round ((od.original : ℚ)) : ℤ) : ℚ),
               deposit := deposit.amount,
               fee := ((round od.fee : ℤ) : ℚ),
               feePercent := round1 (od.fee_percent * 100),
               totalPayback := ((round total_payback : ℤ) : ℚ),
               factor := round2 factor,
               likelihood := determine_likelihood factor,
               intelligenceScore := 0 }
      else none))

/-- The built-in generic profile used when no lender profile matched. -/
def defaultProfile (frequency : String) : LenderProfile :=
  if frequency = "weekly" then
    { aliases := [], typical_factor := 1.45, factor_range := (1.35, 1.55),
      typical_terms_weekly := [40, 42, 44, 46, 48, 50], typical_terms_daily := [],
      typical_fee_range := (0.02, 0.08) }
  else
    { aliases := [], typical_factor := 1.45, factor_range := (1.35, 1.55),
      typical_terms_weekly := [], typical_terms_daily := [100, 110, 120, 130, 140],
      typical_fee_range := (0.05, 0.10) }

/-- Python min(typical_terms, key=lambda x: abs(x - term)): first element
with minimal distance. -/
def minByDist (term : ℤ) (t : ℤ) (ts : List ℤ) : ℤ :=
  ts.foldl (fun best x => if |x - term| < |best - term| then x else best) t

/-- The additive intelligence score of _prioritize_with_lender_knowledge.
Note the source reads the formatted factor and fee-percent strings back,
so the rounded stored values are used. -/
def scoreScenario (profile : LenderProfile) (frequency : String) (s : Scenario) : ℤ :=
  let factor := s.factor
  let s1 : ℤ := if profile.factor_range.1 ≤ factor ∧ factor ≤ profile.factor_range.2 then 20 else 0
  let s2 : ℤ := if |factor - profile.typical_factor| < 0.05 then 30 else 0
  let typical_terms := if frequency = "weekly" then profile.typical_terms_weekly
    else profile.typical_terms_daily
  let s3 : ℤ :=
    if s.term ∈ typical_terms then 25
    else match typical_terms with
      | [] => 0
      | t :: ts => if |s.term - minByDist s.term t ts| ≤ 4 then 15 else 0
  let fee_pct := s.feePercent / 100
  let s4 : ℤ := if profile.typical_fee_range.1 ≤ fee_pct ∧ fee_pct ≤ profile.typical_fee_range.2 then 10 else 0
  s1 + s2 + s3 + s4

/-- Store the intelligence score on a scenario and upgrade its likelihood
when the score is high. -/
def updateScenario (profile : LenderProfile) (frequency : String) (s : Scenario) : Scenario :=
  let score := scoreScenario profile frequency s
  let lik :=
    if 60 ≤ score ∧ s.likelihood ≠ "most-likely" ∧ s.likelihood ≠ "realistic" then "realistic"
    else if 40 ≤ score ∧ s.likelihood = "unlikely" then "possible-low"
    else s.likelihood
  { s with intelligenceScore := score, likelihood := lik }

/-- FCSAnalyzer._prioritize_with_lender_knowledge: score every scenario
against the profile (or the generic default) and stably sort by descending
intelligence score. -/
def prioritize (profile : Option LenderProfile) (frequency : String)
    (scenarios : List Scenario) : List Scenario :=
  let prof := profile.getD (defaultProfile frequency)
  sortByKey (fun s => -s.intelligenceScore) (scenarios.map (updateScenario prof frequency))

/-- The ranked scenario list before term-deduplication. -/
def rankedScenarios (profiles : Directory) (deposit : LastDeposit) (payment : ℚ)
    (frequency : String) : List Scenario :=
  prioritize (identify_lender profiles deposit.lender) frequency
    (generatedScenarios deposit payment frequency)

/-- The term-deduplication loop: keep the first scenario seen for each
term value (seen holds the terms already taken). -/
def dedupLoop (seen : List ℤ) : List Scenario → List Scenario
  | [] => []
  | s :: rest =>
    if s.term ∈ seen then dedupLoop seen rest
    else s :: dedupLoop (s.term :: seen) rest

structure LastPositionResult where
  scenarios : List Scenario
  lenderProfile : Option LenderProfile
  deposit : LastDeposit
deriving DecidableEq

/-- FCSAnalyzer.analyze_last_position (the revenue argument is unused in
the source as well). -/
def analyze_last_position (profiles : Directory) (deposit : LastDeposit) (payment : ℚ)
    (frequency : String) (revenue : ℚ) : LastPositionResult :=
  let ranked := rankedScenarios profiles deposit payment frequency
  let unique_scenarios := dedupLoop [] ranked
  let sorted := sortByKey (fun s => s.term) unique_scenarios
  { scenarios := sorted.take 10,
    lenderProfile := identify_lender profiles deposit.lender,
    deposit := deposit }

/-! ## calculate_affordable_funding (source lines 349-372) -/

structure AffordableFundingResult where
  availablePayment : ℚ
  frequency : String
  term : ℤ
  termUnit : String
  factor : ℚ
  totalPayback : ℚ
  affordableFunding : ℤ
  additionalWithhold : ℚ
deriving DecidableEq

/-- FCSAnalyzer.calculate_affordable_funding. -/
def calculate_affordable_funding (additional_withhold revenue : ℚ)
    (selected_scenario : Scenario) (frequency : String) : AffordableFundingResult :=
  let available_monthly_payment := (additional_withhold / 100) * revenue
  let available_daily_rate := available_monthly_payment / 21
  let available_payment :=
    if frequency = "weekly" then available_daily_rate * 5 else available_daily_rate
  let term := selected_scenario.term
  let factor := selected_scenario.factor
  let total_payback := available_payment * (term : ℚ)
  let affordable_funding := total_payback / factor
  { availablePayment := round2 available_payment,
    frequency := frequency,
    term := term,
    termUnit := selected_scenario.termUnit,
    factor := factor,
    totalPayback := round2 total_payback,
    affordableFunding := round affordable_funding,
    additionalWithhold := additional_withhold }

/-! ## analyze (source lines 374-467) -/

structure BusinessOverview where
  name : Option String
  industry : Option String
  state : Option String
  currentPositions : Option ℤ
  nextPosition : Option ℤ
  avgRevenue : Option ℚ
  avgBankBalance : Option ℚ
  negativeDays : Option ℤ
  timeInBusiness : Option String
deriving DecidableEq

structure AnalyzeOk where
  businessOverview : BusinessOverview
  withholding : WithholdingResult
  lastPositionAnalysis : Option LastPositionResult
  affordableFunding : Option AffordableFundingResult
deriving DecidableEq

inductive AnalyzeResult where
  | error (msg : String)
  | ok (result : AnalyzeOk)
deriving DecidableEq

def AnalyzeResult.isError : AnalyzeResult → Bool
  | .error _ => true
  | .ok _ => false

/-- FCSAnalyzer.analyze after parsing: the orchestrator applied to the
record parse_fcs produced.  The revenue check mirrors Python falsiness
(absent or 0.0 both fail).  parse_fcs emits payment and frequency whenever
it emits a lastDeposit, so the position-matching fallback of source lines
408-431 is unreachable and the deposit's own payment/frequency are used;
the zero-payment guard mirrors `if payment and frequency`. -/
def analyzeParsed (profiles : Directory) (p : ParsedData)
    (additional_withhold : ℚ) : AnalyzeResult :=
  match p.avgRevenue with
  | none => .error "Could not find Average True Revenue in the report."
  | some rev =>
    if rev = 0 then .error "Could not find Average True Revenue in the report."
    else
      let active_positions := p.mcaPositions.filter (fun q => decide (q.status = "active"))
      let withholding_data := calculate_withholding active_positions rev
      let pair : Option LastPositionResult × Option AffordableFundingResult :=
        match p.lastDeposit with
        | none => (none, none)
        | some last_deposit =>
          if last_deposit.payment ≠ 0 ∧ last_deposit.frequency ≠ "" then
            let lp := analyze_last_position profiles last_deposit last_deposit.payment
              last_deposit.frequency rev
            match lp.scenarios with
            | [] => (some lp, none)
            | best_scenario :: _ =>
              (some lp, some (calculate_affordable_funding additional_withhold rev
                best_scenario last_deposit.frequency))
          else (none, none)
      .ok { businessOverview :=
              { name := p.businessName, industry := p.industry, state := p.state,
                currentPositions := p.currentPositionCount, nextPosition := p.nextPosition,
                avgRevenue := p.avgRevenue, avgBankBalance := p.avgBankBalance,
                negativeDays := p.negativeDays, timeInBusiness := p.timeInBusiness },
            withholding := withholding_data,
            lastPositionAnalysis := pair.1,
            affordableFunding := pair.2 }

/-- The withholding total of an analysis result, when it succeeded. -/
def totalOfResult : AnalyzeResult → Option ℚ
  | .error _ => none
  | .ok r => some r.withholding.total

/-- The first element of the emitted scenario sequence, when present. -/
def firstScenario : AnalyzeResult → Option Scenario
  | .error _ => none
  | .ok r => r.lastPositionAnalysis.bind (fun lp => lp.scenarios.head?)

/-! ## Concrete instances used by the end-to-end properties and witnesses -/

/-- A profile with typical factor 1.49 and typical weekly terms including
48 (the setup of the end-to-end property). -/
def alphaProfile : LenderProfile :=
  { aliases := ["alpha"], typical_factor := 1.49, factor_range := (1.35, 1.55),
    typical_terms_weekly := [44, 46, 48, 50], typical_terms_daily := [],
    typical_fee_range := (0.02, 0.08) }

/-- A directory containing exactly the alpha profile. -/
def profilesAlpha : Directory := [("alpha", alphaProfile)]

/-- A last deposit of $47,500 at $3,000/weekly from the matched lender. -/
def depositAlpha : LastDeposit :=
  { amount := 47500, date := "01/15/2025", lender := "Alpha Funding",
    payment := 3000, frequency := "weekly" }

/-- One active weekly position of $3,000. -/
def positionAlpha : Position :=
  { position := 1, lender := "Alpha Funding", amount := 3000,
    frequency := "weekly", lastPull := "02/01/2025", status := "active" }

/-- The parsed report of the end-to-end property: revenue $150,000, one
active weekly position of $3,000, last deposit $47,500 at $3,000/weekly. -/
def reportAlpha : ParsedData :=
  { businessName := some "Alpha Bakery LLC", currentPositionCount := some 1,
    nextPosition := some 2, industry := some "Food", timeInBusiness := some "5 years",
    avgRevenue := some 150000, negativeDays := some 0, avgNegativeDays := none,
    avgBankBalance := some 20000, state := some "NY",
    lastDeposit := some depositAlpha,
    mcaPositions := [positionAlpha] }

/-- The first emitted scenario for the end-to-end input: term 20 at factor
1.20 (the only fee-plausible original funding is $50,000, so the factor
window [1.20, 1.60] admits exactly the terms 20, 22, 24, 26). -/
def scenarioTerm20 : Scenario :=
  { term := 20, termUnit := "weeks", payment := 3000, frequency := "weekly",
    originalFunding := 50000, deposit := 47500, fee := 2500, feePercent := 5,
    totalPayback := 60000, factor := 6/5, likelihood := "unlikely",
    intelligenceScore := 10 }

def scenarioTerm22 : Scenario :=
  { term := 22, termUnit := "weeks", payment := 3000, frequency := "weekly",
    originalFunding := 50000, deposit := 47500, fee := 2500, feePercent := 5,
    totalPayback := 66000, factor := 33/25, likelihood := "possible-low",
    intelligenceScore := 10 }

def scenarioTerm24 : Scenario :=
  { term := 24, termUnit := "weeks", payment := 3000, frequency := "weekly",
    originalFunding := 50000, deposit := 47500, fee := 2500, feePercent := 5,
    totalPayback := 72000, factor := 36/25, likelihood := "realistic",
    intelligenceScore := 30 }

def scenarioTerm26 : Scenario :=
  { term := 26, termUnit := "weeks", payment := 3000, frequency := "weekly",
    originalFunding := 50000, deposit := 47500, fee := 2500, feePercent := 5,
    totalPayback := 78000, factor := 39/25, likelihood := "possible-high",
    intelligenceScore := 10 }

/-! ## Evaluation of the pipeline on the end-to-end input -/

theorem evalSortedOriginals :
    sortedOriginalsWithFees 47500 = [{ original := 50000, fee := 2500, fee_percent := 1/20 }] := by
  norm_num [sortedOriginalsWithFees, originalsWithFees, get_possible_clean_amounts,
    sortByKey, insertByKey, score_fee, List.filter, List.filterMap, List.range_succ]

theorem evalWeeklyTerms :
    weeklyTerms = [10, 12, 14, 16, 18, 20, 22, 24, 26, 28, 30, 32, 34, 36, 38, 40, 42,
      44, 46, 48, 50, 52, 54, 56, 58, 60, 62, 64, 66, 68, 70] := by
  decide

set_option maxHeartbeats 2000000 in
theorem evalGenerated :
    generatedScenarios depositAlpha 3000 "weekly"
      = [{ scenarioTerm20 with intelligenceScore := 0 },
         { scenarioTerm22 with intelligenceScore := 0 },
         { scenarioTerm24 with intelligenceScore := 0 },
         { scenarioTerm26 with intelligenceScore := 0 }] := by
  rw [generatedScenarios, show depositAlpha.amount = 47500 from rfl, evalSortedOriginals,
    show termsFor "weekly" = weeklyTerms from rfl, evalWeeklyTerms]
  norm_num +decide [List.filterMap_cons, determine_likelihood, round1, round2, round_eq,
    abs_lt, scenarioTerm20, scenarioTerm22, scenarioTerm24, scenarioTerm26]

theorem evalLowerName : pyStrip (pyLower "Alpha Funding") = "alpha funding" := by decide

theorem evalLender : identify_lender profilesAlpha "Alpha Funding" = some alphaProfile := by
  have h : (alphaProfile.aliases.any fun al =>
      isSubstring al "alpha funding" || isSubstring "alpha funding" al) = true := by decide
  rw [identify_lender, evalLowerName, profilesAlpha]
  rw [findProfile, if_pos h]

theorem evalRanked :
    rankedScenarios profilesAlpha depositAlpha 3000 "weekly"
      = [scenarioTerm24, scenarioTerm20, scenarioTerm22, scenarioTerm26] := by
  rw [rankedScenarios, show depositAlpha.lender = "Alpha Funding" from rfl,
    evalLender, evalGenerated, prioritize]
  norm_num +decide [updateScenario, scoreScenario, minByDist, alphaProfile, sortByKey,
    insertByKey, abs_lt, scenarioTerm20, scenarioTerm22, scenarioTerm24, scenarioTerm26]

theorem evalLastPosition :
    analyze_last_position profilesAlpha depositAlpha 3000 "weekly" 150000
      = { scenarios := [scenarioTerm20, scenarioTerm22, scenarioTerm24, scenarioTerm26],
          lenderProfile := some alphaProfile, deposit := depositAlpha } := by
  rw [analyze_last_position, evalRanked, show depositAlpha.lender = "Alpha Funding" from rfl,
    evalLender]
  norm_num +decide [dedupLoop, sortByKey, insertByKey, List.take,
    scenarioTerm20, scenarioTerm22, scenarioTerm24, scenarioTerm26]

theorem evalScenarios :
    (analyze_last_position profilesAlpha depositAlpha 3000 "weekly" 150000).scenarios
      = [scenarioTerm20, scenarioTerm22, scenarioTerm24, scenarioTerm26] := by
  rw [evalLastPosition]

/-- The affordable-funding projection computed from the first emitted
scenario (term 20, factor 1.20) at tolerance 10 and revenue 150000. -/
def affordableAlpha : AffordableFundingResult :=
  { availablePayment := 357143/100, frequency := "weekly", term := 20, termUnit := "weeks",
    factor := 6/5, totalPayback := 7142857/100, affordableFunding := 59524,
    additionalWithhold := 10 }

theorem evalAfford :
    calculate_affordable_funding 10 150000 scenarioTerm20 "weekly" = affordableAlpha := by
  norm_num [calculate_affordable_funding, scenarioTerm20, affordableAlpha, round2, round_eq]

/-- The withholding breakdown entry of the end-to-end input. -/
def breakdownAlpha : BreakdownEntry :=
  { lender := "Alpha Funding", payment := 3000, frequency := "weekly",
    dailyRate := 600, monthlyPayment := 12600, withholdPct := 42/5 }

/-- The business overview of the end-to-end input. -/
def overviewAlpha : BusinessOverview :=
  { name := some "Alpha Bakery LLC", industry := some "Food", state := some "NY",
    currentPositions := some 1, nextPosition := some 2,
    avgRevenue := some 150000, avgBankBalance := some 20000,
    negativeDays := some 0, timeInBusiness := some "5 years" }

theorem evalAnalyzeAlpha :
    analyzeParsed profilesAlpha reportAlpha 10
      = .ok { businessOverview := overviewAlpha,
              withholding := { total := 42/5, breakdown := [breakdownAlpha] },
              lastPositionAnalysis :=
                some { scenarios := [scenarioTerm20, scenarioTerm22, scenarioTerm24,
                         scenarioTerm26],
                       lenderProfile := some alphaProfile, deposit := depositAlpha },
              affordableFunding := some affordableAlpha } := by
  rw [analyzeParsed]
  simp only [reportAlpha, show depositAlpha.payment = 3000 from rfl,
    show depositAlpha.frequency = "weekly" from rfl]
  rw [if_neg (by norm_num : ¬(150000 : ℚ) = 0)]
  rw [if_pos (⟨by norm_num, by decide⟩ : (3000 : ℚ) ≠ 0 ∧ ("weekly" : String) ≠ "")]
  rw [evalLastPosition]
  norm_num +decide [calculate_withholding, withholdLoop, positionAlpha, round2, round_eq,
    List.filter, overviewAlpha, breakdownAlpha, evalAfford]

/-! ## C1: the end-to-end property -/

/-- C1 counterexample: on the end-to-end input (revenue $150,000, one
active weekly position of $3,000, last deposit $47,500 at $3,000/weekly
from the matched lender with typical factor 1.49 and typical weekly terms
including 48) the withholding total is indeed 8.4, but the first element
of the emitted scenario sequence has term 20, not 48: with payment $3,000
the only fee-plausible original funding is $50,000 and no term reaches
factor 1.49 inside [1.20, 1.60] at term 48. -/
theorem claim_C1_counterexample :
    totalOfResult (analyzeParsed profilesAlpha reportAlpha 10) = some (42/5)
    ∧ (firstScenario (analyzeParsed profilesAlpha reportAlpha 10)).map Scenario.term = some 20
    ∧ ¬ ((firstScenario (analyzeParsed profilesAlpha reportAlpha 10)).map Scenario.term
          = some 48) := by
  rw [evalAnalyzeAlpha]
  refine ⟨rfl, rfl, ?_⟩
  simp [firstScenario, scenarioTerm20]

/-- C1 amended: on the end-to-end input the analysis yields a withholding
total of 8.4, and the first element of the emitted scenario sequence is
the term-20 scenario with factor 1.20 (not term 48 with factor near
1.49). -/
theorem claim_C1_amended :
    totalOfResult (analyzeParsed profilesAlpha reportAlpha 10) = some (42/5)
    ∧ firstScenario (analyzeParsed profilesAlpha reportAlpha 10) = some scenarioTerm20
    ∧ scenarioTerm20.term = 20 ∧ scenarioTerm20.factor = 6/5 := by
  rw [evalAnalyzeAlpha]
  exact ⟨rfl, rfl, rfl, rfl⟩

/-- The active weekly $2,000 position of the withholding example. -/
def positionWeekly2000 : Position :=
  { position := 1, lender := "Lender", amount := 2000, frequency := "weekly",
    lastPull := "01/01/2025", status := "active" }

/-! ## Withholding calculator: closed-form characterisation -/

/-- The normalised daily rate of a position (weekly payment divided by 5,
daily payment unchanged). -/
def dailyRateOf (p : Position) : ℚ :=
  if p.frequency = "weekly" then p.amount / 5 else p.amount

/-- The withholding percentage one active position contributes. -/
def withholdPctOf (revenue : ℚ) (p : Position) : ℚ :=
  dailyRateOf p * 21 / revenue * 100

/-- The breakdown entry produced for one active position. -/
def breakdownEntryOf (revenue : ℚ) (p : Position) : BreakdownEntry :=
  { lender := p.lender, payment := p.amount, frequency := p.frequency,
    dailyRate := round2 (dailyRateOf p),
    monthlyPayment := round2 (dailyRateOf p * 21),
    withholdPct := round2 (dailyRateOf p * 21 / revenue * 100) }

theorem withholdLoop_eq (revenue : ℚ) (l : List Position) :
    withholdLoop revenue l
      = (((l.filter (fun p => decide (p.status = "active"))).map (withholdPctOf revenue)).sum,
         (l.filter (fun p => decide (p.status = "active"))).map (breakdownEntryOf revenue)) := by
  induction l with
  | nil => simp [withholdLoop]
  | cons p rest ih =>
    by_cases h : p.status = "active"
    · simp [withholdLoop, h, List.filter_cons, ih, withholdPctOf, dailyRateOf, breakdownEntryOf]
    · simp [withholdLoop, h, List.filter_cons, ih]

/-- C3: for every list of positions and positive revenue, the withholding
calculator computes, for each active position, dailyRate = payment / 5
when the frequency is weekly else payment, monthlyPayment = dailyRate * 21
and withholdPct = monthlyPayment / revenue * 100; the returned total is
the sum of the per-position percentages rounded to 2 decimals, and the
breakdown lists each active position in input order with dailyRate,
monthlyPayment and withholdPct each rounded to 2 decimals. -/
theorem claim_C3 (positions : List Position) (revenue : ℚ) (hrev : 0 < revenue) :
    (calculate_withholding positions revenue).total
        = round2 (((positions.filter (fun p => decide (p.status = "active"))).map
            (withholdPctOf revenue)).sum)
      ∧ (calculate_withholding positions revenue).breakdown
        = (positions.filter (fun p => decide (p.status = "active"))).map
            (breakdownEntryOf revenue) := by
  constructor <;> simp [calculate_withholding, withholdLoop_eq]

/-- Witness for C3, at the example of the claim: one active weekly
position of $2,000 against $100,000 revenue yields dailyRate 400,
monthlyPayment 8400 and withholdPct 8.4 (= 42/5), total 8.4. -/
theorem claim_C3_witness :
    ((calculate_withholding [positionWeekly2000] 100000).total
        = round2 ((([positionWeekly2000].filter (fun p => decide (p.status = "active"))).map
            (withholdPctOf 100000)).sum)
      ∧ (calculate_withholding [positionWeekly2000] 100000).breakdown
        = ([positionWeekly2000].filter (fun p => decide (p.status = "active"))).map
            (breakdownEntryOf 100000))
    ∧ (calculate_withholding [positionWeekly2000] 100000).breakdown
        = [{ lender := "Lender", payment := 2000, frequency := "weekly",
             dailyRate := 400, monthlyPayment := 8400, withholdPct := 42/5 }]
    ∧ (calculate_withholding [positionWeekly2000] 100000).total = 42/5 :=
  ⟨claim_C3 [positionWeekly2000] 100000 (by norm_num),
   by norm_num [calculate_withholding, withholdLoop, positionWeekly2000, round2, round_eq],
   by norm_num [calculate_withholding, withholdLoop, positionWeekly2000, round2, round_eq]⟩

/-! ## Scenario-pipeline membership lemmas -/

theorem mem_of_mem_dedupLoop {seen : List ℤ} {l : List Scenario} {s : Scenario}
    (h : s ∈ dedupLoop seen l) : s ∈ l := by
  induction l generalizing seen with
  | nil => simp [dedupLoop] at h
  | cons a rest ih =>
    by_cases ha : a.term ∈ seen
    · rw [dedupLoop, if_pos ha] at h
      exact List.mem_cons_of_mem a (ih h)
    · rw [dedupLoop, if_neg ha] at h
      rcases List.mem_cons.mp h with rfl | h
      · exact List.mem_cons_self _ _
      · exact List.mem_cons_of_mem _ (ih h)

theorem term_not_mem_of_mem_dedupLoop {seen : List ℤ} {l : List Scenario} {s : Scenario}
    (h : s ∈ dedupLoop seen l) : s.term ∉ seen := by
  induction l generalizing seen with
  | nil => simp [dedupLoop] at h
  | cons a rest ih =>
    by_cases ha : a.term ∈ seen
    · rw [dedupLoop, if_pos ha] at h
      exact ih h
    · rw [dedupLoop, if_neg ha] at h
      rcases List.mem_cons.mp h with rfl | h
      · exact ha
      · intro hseen
        exact ih h (List.mem_cons_of_mem _ hseen)

theorem find?_of_mem_dedupLoop {seen : List ℤ} {l : List Scenario} {s : Scenario}
    (h : s ∈ dedupLoop seen l) :
    l.find? (fun x => decide (x.term = s.term)) = some s := by
  induction l generalizing seen with
  | nil => simp [dedupLoop] at h
  | cons a rest ih =>
    by_cases ha : a.term ∈ seen
    · rw [dedupLoop, if_pos ha] at h
      have hs : s.term ∉ seen := term_not_mem_of_mem_dedupLoop h
      have hne : ¬(a.term = s.term) := fun he => hs (he ▸ ha)
      rw [List.find?_cons_of_neg _ (by simpa using hne)]
      exact ih h
    · rw [dedupLoop, if_neg ha] at h
      rcases List.mem_cons.mp h with rfl | h
      · exact List.find?_cons_of_pos _ (by simp)
      · have hs : s.term ∉ a.term :: seen := term_not_mem_of_mem_dedupLoop h
        have hne : ¬(a.term = s.term) := by
          intro he
          exact hs (he ▸ List.mem_cons_self _ _)
        rw [List.find?_cons_of_neg _ (by simpa using hne)]
        exact ih h

theorem pairwise_ne_dedupLoop (seen : List ℤ) (l : List Scenario) :
    (dedupLoop seen l).Pairwise (fun a b => a.term ≠ b.term) := by
  induction l generalizing seen with
  | nil => simp [dedupLoop]
  | cons a rest ih =>
    by_cases ha : a.term ∈ seen
    · rw [dedupLoop, if_pos ha]
      exact ih seen
    · rw [dedupLoop, if_neg ha]
      refine List.pairwise_cons.mpr ⟨?_, ih (a.term :: seen)⟩
      intro b hb he
      exact term_not_mem_of_mem_dedupLoop hb (he ▸ List.mem_cons_self _ _)

theorem mem_ranked_of_mem_scenarios {profiles : Directory} {deposit : LastDeposit}
    {payment revenue : ℚ} {frequency : String} {s : Scenario}
    (h : s ∈ (analyze_last_position profiles deposit payment frequency revenue).scenarios) :
    s ∈ rankedScenarios profiles deposit payment frequency := by
  rw [analyze_last_position] at h
  have h1 := (List.take_sublist 10 _).subset h
  exact mem_of_mem_dedupLoop ((mem_sortByKey _).mp h1)

/-- C4: every scenario emitted by the scenario reconstructor has its raw
factor payment * term / originalFunding inside [1.20, 1.60] and its fee
percent (originalFunding - deposit) / originalFunding inside [0, 0.10]. -/
theorem claim_C4 (profiles : Directory) (deposit : LastDeposit) (payment : ℚ)
    (frequency : String) (revenue : ℚ) (s : Scenario)
    (hs : s ∈ (analyze_last_position profiles deposit payment frequency revenue).scenarios) :
    (1.20 ≤ s.payment * (s.term : ℚ) / s.originalFunding
      ∧ s.payment * (s.term : ℚ) / s.originalFunding ≤ 1.60)
    ∧ (0 ≤ (s.originalFunding - s.deposit) / s.originalFunding
      ∧ (s.originalFunding - s.deposit) / s.originalFunding ≤ 0.10) := by
  have hr := mem_ranked_of_mem_scenarios hs
  rw [rankedScenarios, prioritize] at hr
  have hm := (mem_sortByKey _).mp hr
  rcases List.mem_map.mp hm with ⟨s0, hs0, rfl⟩
  rw [generatedScenarios] at hs0
  rcases List.mem_flatMap.mp hs0 with ⟨od, hod, hterm⟩
  rcases List.mem_filterMap.mp hterm with ⟨t, _ht, hmk⟩
  simp only at hmk
  by_cases hc : 1.20 ≤ payment * (t : ℚ) / (od.original : ℚ)
      ∧ payment * (t : ℚ) / (od.original : ℚ) ≤ 1.60
  · rw [if_pos hc] at hmk
    have hod' := (mem_sortByKey _).mp hod
    rw [originalsWithFees] at hod'
    rcases List.mem_filterMap.mp hod' with ⟨orig, _horig, hmk2⟩
    simp only at hmk2
    by_cases hfc : 0 ≤ ((orig : ℚ) - deposit.amount) / (orig : ℚ)
        ∧ ((orig : ℚ) - deposit.amount) / (orig : ℚ) ≤ 0.10
    · rw [if_pos hfc] at hmk2
      cases hmk
      cases hmk2
      simp only [updateScenario, round_intCast]
      exact ⟨hc, hfc⟩
    · rw [if_neg hfc] at hmk2
      cases hmk2
  · rw [if_neg hc] at hmk
    cases hmk

/-- Witness for C4 at the end-to-end input and its first emitted
scenario. -/
theorem claim_C4_witness :
    (1.20 ≤ scenarioTerm20.payment * (scenarioTerm20.term : ℚ) / scenarioTerm20.originalFunding
      ∧ scenarioTerm20.payment * (scenarioTerm20.term : ℚ) / scenarioTerm20.originalFunding ≤ 1.60)
    ∧ (0 ≤ (scenarioTerm20.originalFunding - scenarioTerm20.deposit) / scenarioTerm20.originalFunding
      ∧ (scenarioTerm20.originalFunding - scenarioTerm20.deposit) / scenarioTerm20.originalFunding
          ≤ 0.10) :=
  claim_C4 profilesAlpha depositAlpha 3000 "weekly" 150000 scenarioTerm20
    (by rw [evalScenarios]; exact List.mem_cons_self _ _)

/-- C5: the emitted scenario sequence has at most 10 entries, its terms
are strictly ascending (hence pairwise distinct), and each emitted entry
is the first (highest-ranked) scenario with its term value in the ranked
pre-deduplication sequence. -/
theorem claim_C5 (profiles : Directory) (deposit : LastDeposit) (payment : ℚ)
    (frequency : String) (revenue : ℚ) :
    (analyze_last_position profiles deposit payment frequency revenue).scenarios.length ≤ 10
    ∧ (analyze_last_position profiles deposit payment frequency revenue).scenarios.Pairwise
        (fun a b => a.term < b.term)
    ∧ ∀ s ∈ (analyze_last_position profiles deposit payment frequency revenue).scenarios,
        (rankedScenarios profiles deposit payment frequency).find?
          (fun x => decide (x.term = s.term)) = some s := by
  refine ⟨?_, ?_, ?_⟩
  · rw [analyze_last_position]
    exact List.length_take_le 10 _
  · rw [analyze_last_position]
    have hsorted := sortByKey_pairwise (fun s : Scenario => s.term)
      (dedupLoop [] (rankedScenarios profiles deposit payment frequency))
    have hne : (sortByKey (fun s : Scenario => s.term)
        (dedupLoop [] (rankedScenarios profiles deposit payment frequency))).Pairwise
        (fun a b => a.term ≠ b.term) :=
      ((sortByKey_perm _ _).pairwise_iff (fun h he => h he.symm)).mpr
        (pairwise_ne_dedupLoop _ _)
    have hlt := (hsorted.and hne).imp
      (fun hab => lt_of_le_of_ne hab.1 hab.2)
    exact hlt.sublist (List.take_sublist 10 _)
  · intro s hs
    have h1 := (List.take_sublist 10 _).subset (by rw [analyze_last_position] at hs; exact hs)
    exact find?_of_mem_dedupLoop ((mem_sortByKey _).mp h1)

/-- Witness for C5 at the end-to-end input: at most 10 scenarios, and the
term-20 entry is the first term-20 scenario of the ranked sequence. -/
theorem claim_C5_witness :
    (analyze_last_position profilesAlpha depositAlpha 3000 "weekly" 150000).scenarios.length ≤ 10
    ∧ (rankedScenarios profilesAlpha depositAlpha 3000 "weekly").find?
        (fun x => decide (x.term = scenarioTerm20.term)) = some scenarioTerm20 :=
  ⟨(claim_C5 profilesAlpha depositAlpha 3000 "weekly" 150000).1,
   (claim_C5 profilesAlpha depositAlpha 3000 "weekly" 150000).2.2 scenarioTerm20
     (by rw [evalScenarios]; exact List.mem_cons_self _ _)⟩

/-- C9: the withholding calculator itself skips every position whose
status is not "active": filtering the input to active positions first
does not change the result, so stopped positions contribute nothing to
the total and never appear in the breakdown. -/
theorem claim_C9 (positions : List Position) (revenue : ℚ) :
    calculate_withholding positions revenue
      = calculate_withholding
          (positions.filter (fun p => decide (p.status = "active"))) revenue := by
  simp [calculate_withholding, withholdLoop_eq, List.filter_filter]

/-! ## C6: the fee filter and fee-band ordering -/

theorem score_fee_bounds (x : ℚ) : 1 ≤ score_fee x ∧ score_fee x ≤ 4 := by
  rw [score_fee]
  split
  · norm_num
  · split
    · norm_num
    · split <;> norm_num

/-- C6 counterexample: for deposit $9,750 the fee filter retains the
single candidate $10,000 with feePercent 1/40 = 2.5%, which lies in none
of the three bands [3%,5%], [0,2%], [6%,10%]. -/
theorem claim_C6_counterexample :
    sortedOriginalsWithFees 9750 = [{ original := 10000, fee := 250, fee_percent := 1/40 }]
    ∧ ¬ ((0.03 ≤ (1/40 : ℚ) ∧ (1/40 : ℚ) ≤ 0.05) ∨ (0 ≤ (1/40 : ℚ) ∧ (1/40 : ℚ) ≤ 0.02)
          ∨ (0.06 ≤ (1/40 : ℚ) ∧ (1/40 : ℚ) ≤ 0.10)) := by
  constructor
  · norm_num [sortedOriginalsWithFees, originalsWithFees, get_possible_clean_amounts,
      sortByKey, insertByKey, score_fee, List.filter, List.filterMap, List.range_succ]
  · norm_num

/-- C6 amended: every candidate retained by the fee filter has feePercent
in [0, 0.10] (equal to (candidate - deposit) / candidate), and the
retained candidates are ordered by the four-level fee score (band
[3%,5%] first, then [0,2%], then [6%,10%], then the residual gaps
(2%,3%) and (5%,6%)), stably: within one score class the original
candidate order is kept. -/
theorem claim_C6_amended (deposit : ℚ) :
    (∀ od ∈ originalsWithFees deposit,
        (0 ≤ od.fee_percent ∧ od.fee_percent ≤ 0.10)
        ∧ od.fee_percent = ((od.original : ℚ) - deposit) / (od.original : ℚ))
    ∧ sortedOriginalsWithFees deposit
      = (originalsWithFees deposit).filter (fun od => decide (score_fee od.fee_percent = 1))
        ++ (originalsWithFees deposit).filter (fun od => decide (score_fee od.fee_percent = 2))
        ++ (originalsWithFees deposit).filter (fun od => decide (score_fee od.fee_percent = 3))
        ++ (originalsWithFees deposit).filter (fun od => decide (score_fee od.fee_percent = 4)) := by
  constructor
  · intro od hod
    rw [originalsWithFees] at hod
    rcases List.mem_filterMap.mp hod with ⟨orig, _horig, hmk⟩
    simp only at hmk
    by_cases hfc : 0 ≤ ((orig : ℚ) - deposit) / (orig : ℚ)
        ∧ ((orig : ℚ) - deposit) / (orig : ℚ) ≤ 0.10
    · rw [if_pos hfc] at hmk
      cases hmk
      exact ⟨hfc, rfl⟩
    · rw [if_neg hfc] at hmk
      cases hmk
  · rw [sortedOriginalsWithFees]
    exact sortByKey_four_bands _ _ (fun od _ => score_fee_bounds od.fee_percent)

/-- Witness for C6 at deposit $9,750 and its retained candidate. -/
theorem claim_C6_witness :
    ((0 ≤ (1/40 : ℚ) ∧ (1/40 : ℚ) ≤ 0.10)
      ∧ (1/40 : ℚ) = (((10000 : ℤ) : ℚ) - 9750) / ((10000 : ℤ) : ℚ))
    ∧ sortedOriginalsWithFees 9750
      = (originalsWithFees 9750).filter (fun od => decide (score_fee od.fee_percent = 1))
        ++ (originalsWithFees 9750).filter (fun od => decide (score_fee od.fee_percent = 2))
        ++ (originalsWithFees 9750).filter (fun od => decide (score_fee od.fee_percent = 3))
        ++ (originalsWithFees 9750).filter (fun od => decide (score_fee od.fee_percent = 4)) :=
  ⟨(claim_C6_amended 9750).1 { original := 10000, fee := 250, fee_percent := 1/40 }
      (by norm_num [originalsWithFees, get_possible_clean_amounts, List.filter,
        List.filterMap, List.range_succ]),
   (claim_C6_amended 9750).2⟩

/-! ## C7: the lender matcher -/

/-- C7: the lender matcher returns the first profile in directory
iteration order having some alias that is a substring of the lowercased,
trimmed input name or that contains it; it returns no match exactly when
no alias of any profile (in particular, when the directory is empty)
satisfies either containment test. -/
theorem claim_C7 (profiles : Directory) (lender_name : String) :
    identify_lender profiles lender_name
      = (profiles.find? (fun kp => kp.2.aliases.any (fun al =>
          isSubstring al (pyStrip (pyLower lender_name))
          || isSubstring (pyStrip (pyLower lender_name)) al))).map Prod.snd
    ∧ (identify_lender profiles lender_name = none ↔
        ∀ kp ∈ profiles, ∀ al ∈ kp.2.aliases,
          isSubstring al (pyStrip (pyLower lender_name)) = false
          ∧ isSubstring (pyStrip (pyLower lender_name)) al = false) := by
  have h1 : identify_lender profiles lender_name
      = (profiles.find? (fun kp => kp.2.aliases.any (fun al =>
          isSubstring al (pyStrip (pyLower lender_name))
          || isSubstring (pyStrip (pyLower lender_name)) al))).map Prod.snd := by
    rw [identify_lender]
    induction profiles with
    | nil => rfl
    | cons kp rest ih =>
      rcases kp with ⟨k, profile⟩
      by_cases hc : (profile.aliases.any (fun al =>
          isSubstring al (pyStrip (pyLower lender_name))
          || isSubstring (pyStrip (pyLower lender_name)) al)) = true
      · rw [findProfile, if_pos hc]
        simp [hc]
      · rw [findProfile, if_neg hc]
        simp only [Bool.not_eq_true] at hc
        simp [hc, ih]
  refine ⟨h1, ?_⟩
  rw [h1, Option.map_eq_none', List.find?_eq_none]
  constructor
  · intro h kp hkp al hal
    have := h kp hkp
    simp only [List.any_eq_true, not_exists, not_and, Bool.or_eq_true, not_or] at this
    have h2 := this al hal
    exact ⟨by simpa using h2.1, by simpa using h2.2⟩
  · intro h kp hkp
    simp only [List.any_eq_true, not_exists, not_and, Bool.or_eq_true, not_or]
    intro al hal
    have h2 := h kp hkp al hal
    exact ⟨by simp [h2.1], by simp [h2.2]⟩

/-- Witness for C7: the alpha directory and the name of the end-to-end
deposit, where the match succeeds on the first profile. -/
theorem claim_C7_witness :
    (identify_lender profilesAlpha "Alpha Funding"
      = ((profilesAlpha.find? (fun kp => kp.2.aliases.any (fun al =>
          isSubstring al (pyStrip (pyLower "Alpha Funding"))
          || isSubstring (pyStrip (pyLower "Alpha Funding")) al))).map Prod.snd)
    ∧ (identify_lender profilesAlpha "Alpha Funding" = none ↔
        ∀ kp ∈ profilesAlpha, ∀ al ∈ kp.2.aliases,
          isSubstring al (pyStrip (pyLower "Alpha Funding")) = false
          ∧ isSubstring (pyStrip (pyLower "Alpha Funding")) al = false))
    ∧ identify_lender profilesAlpha "Alpha Funding" = some alphaProfile :=
  ⟨claim_C7 profilesAlpha "Alpha Funding", evalLender⟩

/-! ## C8: the affordability projector -/

/-- C8: for every tolerance, revenue, chosen scenario and frequency (with
the scenario's stored factor positive, as for every emitted scenario),
the affordability projector returns availablePayment =
((tolerance/100) * revenue / 21) * 5 for weekly frequency (without the
* 5 for daily), totalPayback = availablePayment * term, and
affordableFunding = totalPayback / factor rounded to the nearest whole
currency unit; availablePayment and totalPayback are reported rounded to
2 decimals, and term, termUnit, factor and the tolerance are passed
through from the chosen scenario. -/
theorem claim_C8 (tol revenue : ℚ) (s : Scenario) (frequency : String)
    (hf : 0 < s.factor) :
    (calculate_affordable_funding tol revenue s frequency).availablePayment
        = round2 (if frequency = "weekly" then tol / 100 * revenue / 21 * 5
            else tol / 100 * revenue / 21)
    ∧ (calculate_affordable_funding tol revenue s frequency).totalPayback
        = round2 ((if frequency = "weekly" then tol / 100 * revenue / 21 * 5
            else tol / 100 * revenue / 21) * (s.term : ℚ))
    ∧ (calculate_affordable_funding tol revenue s frequency).affordableFunding
        = round ((if frequency = "weekly" then tol / 100 * revenue / 21 * 5
            else tol / 100 * revenue / 21) * (s.term : ℚ) / s.factor)
    ∧ (calculate_affordable_funding tol revenue s frequency).term = s.term
    ∧ (calculate_affordable_funding tol revenue s frequency).termUnit = s.termUnit
    ∧ (calculate_affordable_funding tol revenue s frequency).factor = s.factor
    ∧ (calculate_affordable_funding tol revenue s frequency).frequency = frequency
    ∧ (calculate_affordable_funding tol revenue s frequency).additionalWithhold = tol := by
  by_cases h : frequency = "weekly" <;>
    simp [calculate_affordable_funding, h]

/-- Witness for C8 at tolerance 10, revenue 150000 and the first emitted
end-to-end scenario (factor 1.20 > 0). -/
theorem claim_C8_witness :
    (calculate_affordable_funding 10 150000 scenarioTerm20 "weekly").affordableFunding
      = round ((if ("weekly" : String) = "weekly" then (10 : ℚ) / 100 * 150000 / 21 * 5
          else (10 : ℚ) / 100 * 150000 / 21) * (scenarioTerm20.term : ℚ)
          / scenarioTerm20.factor) :=
  (claim_C8 10 150000 scenarioTerm20 "weekly" (by norm_num [scenarioTerm20])).2.2.1

/-! ## C2 and C10: the orchestrator's error behaviour -/

/-- A parsed report whose average revenue was parsed as zero (the report
text "Average True Revenue: $0" parses to 0.0). -/
def reportZeroRevenue : ParsedData :=
  { businessName := some "Zero Co", currentPositionCount := none, nextPosition := none,
    industry := none, timeInBusiness := none, avgRevenue := some 0, negativeDays := none,
    avgNegativeDays := none, avgBankBalance := none, state := none,
    lastDeposit := none, mcaPositions := [] }

/-- C2 counterexample: a parsed report whose average revenue is present
(parsed as 0) on which the orchestrator still returns the error record,
refuting "an error exactly when average revenue could not be parsed". -/
theorem claim_C2_counterexample :
    reportZeroRevenue.avgRevenue ≠ none
    ∧ analyzeParsed [] reportZeroRevenue 10
        = .error "Could not find Average True Revenue in the report." := by
  constructor
  · simp [reportZeroRevenue]
  · rw [analyzeParsed]
    simp [reportZeroRevenue]

/-- C2 amended: the orchestrator returns an error record exactly when the
parsed average revenue is absent or zero (Python falsiness of the parsed
value); in every other case it returns a normal aggregate whose
sub-results mirror the parsed data: the overview name is the parsed
business name (absent when missing), a missing last deposit yields null
lastPositionAnalysis and affordableFunding, an empty position list
yields withholding total 0 with an empty breakdown, and a last deposit
whose lender matches no directory profile still yields a
lastPositionAnalysis (analysis continues) whose lenderProfile is null. -/
theorem claim_C2_amended (profiles : Directory) (p : ParsedData) (tol : ℚ) :
    ((analyzeParsed profiles p tol).isError = true
      ↔ (p.avgRevenue = none ∨ p.avgRevenue = some 0))
    ∧ ∀ r, analyzeParsed profiles p tol = .ok r →
        r.businessOverview.name = p.businessName
        ∧ (p.lastDeposit = none →
            r.lastPositionAnalysis = none ∧ r.affordableFunding = none)
        ∧ (p.mcaPositions = [] → r.withholding = { total := 0, breakdown := [] })
        ∧ (∀ ld, p.lastDeposit = some ld → ld.payment ≠ 0 → ld.frequency ≠ "" →
            identify_lender profiles ld.lender = none →
            ∃ lp, r.lastPositionAnalysis = some lp ∧ lp.lenderProfile = none) := by
  rcases hrev : p.avgRevenue with _ | rev
  · constructor
    · rw [analyzeParsed, hrev]
      simp [AnalyzeResult.isError]
    · intro r hr
      rw [analyzeParsed, hrev] at hr
      cases hr
  · by_cases h0 : rev = 0
    · subst h0
      constructor
      · rw [analyzeParsed, hrev]
        simp [AnalyzeResult.isError]
      · intro r hr
        rw [analyzeParsed, hrev] at hr
        simp at hr
    · constructor
      · simp only [analyzeParsed, hrev]
        rw [if_neg h0]
        simp [AnalyzeResult.isError, h0]
      · intro r hr
        simp only [analyzeParsed, hrev] at hr
        rw [if_neg h0] at hr
        cases hr
        refine ⟨rfl, ?_, ?_, ?_⟩
        · intro hld
          rw [hld]
          exact ⟨rfl, rfl⟩
        · intro hpos
          rw [hpos]
          simp [calculate_withholding, withholdLoop, round2]
        · intro ld hld hp hf hil
          simp only [hld]
          rw [if_pos (⟨hp, hf⟩ : ld.payment ≠ 0 ∧ ld.frequency ≠ "")]
          rcases hsc : (analyze_last_position profiles ld ld.payment ld.frequency rev).scenarios
            with _ | ⟨b, rest⟩
          · simp only [hsc]
            exact ⟨_, rfl, hil⟩
          · simp only [hsc]
            exact ⟨_, rfl, hil⟩

/-- A parsed report with revenue present, no positions and no deposit. -/
def reportBare : ParsedData :=
  { businessName := none, currentPositionCount := none, nextPosition := none,
    industry := none, timeInBusiness := none, avgRevenue := some 100000,
    negativeDays := none, avgNegativeDays := none, avgBankBalance := none, state := none,
    lastDeposit := none, mcaPositions := [] }

/-- The aggregate the orchestrator returns on the bare report. -/
def bareResult : AnalyzeOk :=
  { businessOverview :=
      { name := none, industry := none, state := none, currentPositions := none,
        nextPosition := none, avgRevenue := some 100000, avgBankBalance := none,
        negativeDays := none, timeInBusiness := none },
    withholding := { total := 0, breakdown := [] },
    lastPositionAnalysis := none, affordableFunding := none }

theorem evalAnalyzeBare : analyzeParsed [] reportBare 10 = .ok bareResult := by
  rw [analyzeParsed]
  simp [reportBare, bareResult, calculate_withholding, withholdLoop, round2]

/-- A last deposit from a lender matching no directory profile, with an
amount ($11,000) for which no clean candidate passes the fee filter. -/
def depositOrphan : LastDeposit :=
  { amount := 11000, date := "02/01/2025", lender := "Mystery Capital",
    payment := 500, frequency := "weekly" }

/-- A parsed report carrying the orphan deposit and nothing else beyond
revenue. -/
def reportOrphan : ParsedData :=
  { businessName := none, currentPositionCount := none, nextPosition := none,
    industry := none, timeInBusiness := none, avgRevenue := some 100000,
    negativeDays := none, avgNegativeDays := none, avgBankBalance := none, state := none,
    lastDeposit := some depositOrphan, mcaPositions := [] }

/-- The aggregate the orchestrator returns on the orphan report: the
analysis ran (lastPositionAnalysis present) with a null lenderProfile. -/
def orphanResult : AnalyzeOk :=
  { businessOverview :=
      { name := none, industry := none, state := none, currentPositions := none,
        nextPosition := none, avgRevenue := some 100000, avgBankBalance := none,
        negativeDays := none, timeInBusiness := none },
    withholding := { total := 0, breakdown := [] },
    lastPositionAnalysis :=
      some { scenarios := [], lenderProfile := none, deposit := depositOrphan },
    affordableFunding := none }

theorem evalOrphanOriginals : sortedOriginalsWithFees 11000 = [] := by
  norm_num [sortedOriginalsWithFees, originalsWithFees, get_possible_clean_amounts,
    sortByKey, insertByKey, List.filter, List.filterMap, List.range_succ]

theorem evalLastPositionOrphan :
    analyze_last_position [] depositOrphan 500 "weekly" 100000
      = { scenarios := [], lenderProfile := none, deposit := depositOrphan } := by
  rw [analyze_last_position, rankedScenarios, generatedScenarios,
    show depositOrphan.amount = 11000 from rfl, evalOrphanOriginals]
  simp [prioritize, identify_lender, findProfile, dedupLoop, sortByKey, List.take]

theorem evalAnalyzeOrphan : analyzeParsed [] reportOrphan 10 = .ok orphanResult := by
  rw [analyzeParsed]
  simp only [reportOrphan, show depositOrphan.payment = 500 from rfl,
    show depositOrphan.frequency = "weekly" from rfl]
  rw [if_neg (by norm_num : ¬(100000 : ℚ) = 0)]
  rw [if_pos (⟨by norm_num, by decide⟩ : (500 : ℚ) ≠ 0 ∧ ("weekly" : String) ≠ "")]
  rw [evalLastPositionOrphan]
  simp [orphanResult, calculate_withholding, withholdLoop, round2]

/-- Witness for C2: on the bare report no error occurs, the name is
absent, the last-position and affordability results are null and the
withholding is empty; on the orphan report the unmatched lender degrades
to a null lenderProfile inside a present lastPositionAnalysis. -/
theorem claim_C2_witness :
    ((analyzeParsed [] reportBare 10).isError = true
      ↔ (reportBare.avgRevenue = none ∨ reportBare.avgRevenue = some 0))
    ∧ (bareResult.businessOverview.name = reportBare.businessName
       ∧ (bareResult.lastPositionAnalysis = none ∧ bareResult.affordableFunding = none)
       ∧ bareResult.withholding = { total := 0, breakdown := [] })
    ∧ (∃ lp, orphanResult.lastPositionAnalysis = some lp ∧ lp.lenderProfile = none) :=
  ⟨(claim_C2_amended [] reportBare 10).1,
   (fun h => ⟨h.1, h.2.1 rfl, h.2.2.1 rfl⟩)
     ((claim_C2_amended [] reportBare 10).2 bareResult evalAnalyzeBare),
   ((claim_C2_amended [] reportOrphan 10).2 orphanResult evalAnalyzeOrphan).2.2.2
     depositOrphan rfl (by norm_num [depositOrphan]) (by decide) rfl⟩

/-- C10: when the parsed last-deposit carries payment 0 (for example a
"($0 weekly)" deposit line) and revenue is present and non-zero, the
orchestrator treats the payment as missing: the aggregate succeeds with
lastPositionAnalysis and affordableFunding both null. -/
theorem claim_C10 (profiles : Directory) (p : ParsedData) (tol : ℚ) (ld : LastDeposit)
    (rev : ℚ) (h1 : p.avgRevenue = some rev) (h2 : rev ≠ 0)
    (h3 : p.lastDeposit = some ld) (h4 : ld.payment = 0) :
    ∃ r, analyzeParsed profiles p tol = .ok r
      ∧ r.lastPositionAnalysis = none ∧ r.affordableFunding = none := by
  simp only [analyzeParsed, h1, h3]
  rw [if_neg h2]
  rw [if_neg (by simp [h4] : ¬(ld.payment ≠ 0 ∧ ld.frequency ≠ ""))]
  exact ⟨_, rfl, rfl, rfl⟩

/-- The end-to-end deposit with its payment zeroed. -/
def depositZeroPay : LastDeposit := { depositAlpha with payment := 0 }

/-- The end-to-end report with a zero-payment last deposit. -/
def reportZeroPay : ParsedData := { reportAlpha with lastDeposit := some depositZeroPay }

/-- Witness for C10 at the zero-payment variant of the end-to-end
report. -/
theorem claim_C10_witness :
    ∃ r, analyzeParsed profilesAlpha reportZeroPay 10 = .ok r
      ∧ r.lastPositionAnalysis = none ∧ r.affordableFunding = none :=
  claim_C10 profilesAlpha reportZeroPay 10 depositZeroPay 150000 rfl (by norm_num) rfl rfl

end FCS
